import Mathlib

/-!
Verification development for the ECCE Calendar tool (`src/app.py`).

The file shallowly embeds the closure-extraction-and-classification
pipeline of the application:

* `parse_ecce_pdf_to_df`  - the text date-range extractor (the PDF
  byte-decoding step `pdfplumber` is an external collaborator; the
  embedding consumes the already-extracted per-page text, as the
  design describes).
* `get_bank_holidays_ie_with_cache` - the resilient holiday-provider
  wrapper; the effectful remote fetch and the on-disk cache file are
  passed in explicitly (a fetch outcome and a cache state).
* `calendar_range_for_openholidays` - the window selector.
* `process_funding_calendar` - the funding classifier; the holiday
  mapping obtained from the provider is passed as a parameter.

Dates are modelled as `year/month/day` triples of naturals; pandas
timestamp arithmetic is modelled through the proleptic-Gregorian day
number (`rataDie`, the same day numbering as `datetime.date.toordinal`).
-/

set_option maxRecDepth 100000

/-- A calendar date, `year/month/day`. -/
structure Date where
  year : Nat
  month : Nat
  day : Nat
deriving DecidableEq, Repr

/-- Gregorian leap-year rule. -/
def isLeapYear (y : Nat) : Bool :=
  (y % 4 == 0 && y % 100 != 0) || y % 400 == 0

/-- Number of days in a month (0 for an out-of-range month index). -/
def daysInMonth (y m : Nat) : Nat :=
  match m with
  | 1 => 31
  | 2 => if isLeapYear y then 29 else 28
  | 3 => 31
  | 4 => 30
  | 5 => 31
  | 6 => 30
  | 7 => 31
  | 8 => 31
  | 9 => 30
  | 10 => 31
  | 11 => 30
  | 12 => 31
  | _ => 0

/-- Days in year `y` strictly before month `m`. -/
def daysBeforeMonth (y m : Nat) : Nat :=
  (List.range (m - 1)).foldl (fun acc i => acc + daysInMonth y (i + 1)) 0

/-- Proleptic-Gregorian day number of a date (the numbering of
`datetime.date.toordinal`: 0001-01-01 is day 1). Differences of
`rataDie` values are exactly the day differences computed by
`(end - start).dt.days` on pandas timestamps at midnight. -/
def rataDie (d : Date) : Nat :=
  365 * (d.year - 1) + (d.year - 1) / 4 - (d.year - 1) / 100 + (d.year - 1) / 400
    + daysBeforeMonth d.year d.month + d.day

/-- Validity of a calendar date as checked by `datetime.date`:
year at least 1, month 1..12, day 1..days-in-month. -/
def isValidDate (dt : Date) : Bool :=
  1 ≤ dt.year && 1 ≤ dt.month && dt.month ≤ 12
    && 1 ≤ dt.day && dt.day ≤ daysInMonth dt.year dt.month

/-- Earliest calendar day representable as a (midnight) pandas
timestamp: `pd.Timestamp.min` is 1677-09-21 00:12, so 1677-09-22 is
the first date whose midnight is in range. -/
def pandasMinOrdinal : Nat := rataDie ⟨1677, 9, 22⟩

/-- Latest calendar day representable as a pandas timestamp
(`pd.Timestamp.max` is 2262-04-11). -/
def pandasMaxOrdinal : Nat := rataDie ⟨2262, 4, 11⟩

/-- Representable-as-pandas-timestamp check: `pd.to_datetime` raises
`OutOfBoundsDatetime` (or coerces to `NaT`) outside this range. -/
def inPandasBounds (dt : Date) : Bool :=
  pandasMinOrdinal ≤ rataDie dt && rataDie dt ≤ pandasMaxOrdinal

/-- Decimal digit character test (the `\d` of the ASCII date shapes). -/
def isDigitChar (c : Char) : Bool :=
  48 ≤ c.toNat && c.toNat ≤ 57

/-- Numeric value of a decimal digit character. -/
def digitVal (c : Char) : Nat := c.toNat - 48

/-- Decimal digit character of a value below 10. -/
def digitChar (n : Nat) : Char := Char.ofNat (48 + n)

/-- Split a character list into its maximal leading run of decimal
digits and the remainder. -/
def takeDigits : List Char → List Char × List Char
  | [] => ([], [])
  | c :: cs =>
    if isDigitChar c then
      let p := takeDigits cs
      (c :: p.1, p.2)
    else ([], c :: cs)

/-- Numeric value of a digit string (most significant digit first). -/
def digitsToNat (ds : List Char) : Nat :=
  ds.foldl (fun acc c => 10 * acc + digitVal c) 0

/-- Two-digit zero-padded decimal rendering (`%d` / `%m`; day and month
values produced by the pipeline are below 100). -/
def pad2 (n : Nat) : List Char := [digitChar (n / 10), digitChar (n % 10)]

/-- Four-digit zero-padded decimal rendering (`%Y` / the ISO year; year
values produced by the pipeline are below 10000). -/
def pad4 (n : Nat) : List Char :=
  [digitChar (n / 1000), digitChar (n / 100 % 10), digitChar (n / 10 % 10),
    digitChar (n % 10)]

/-- Character-level model of
`pd.to_datetime(s, format="%d/%m/%Y", errors="coerce")` /
`datetime.strptime(s, "%d/%m/%Y")`: day and month fields of 1-2 digits
(values 1..31 resp. 1..12, per the `strptime` field patterns), a year
field of exactly 4 digits, nothing left over, then calendar validity
and the pandas timestamp bounds. -/
def parseDMYChars (cs : List Char) : Option Date :=
  let pd := takeDigits cs
  match pd.2 with
  | '/' :: r1 =>
    let pm := takeDigits r1
    match pm.2 with
    | '/' :: r2 =>
      let py := takeDigits r2
      if py.2 = [] ∧ 1 ≤ pd.1.length ∧ pd.1.length ≤ 2
          ∧ 1 ≤ pm.1.length ∧ pm.1.length ≤ 2 ∧ py.1.length = 4 then
        let d := digitsToNat pd.1
        let m := digitsToNat pm.1
        let y := digitsToNat py.1
        if 1 ≤ d ∧ d ≤ 31 ∧ 1 ≤ m ∧ m ≤ 12
            ∧ isValidDate ⟨y, m, d⟩ ∧ inPandasBounds ⟨y, m, d⟩ then
          some ⟨y, m, d⟩
        else none
      else none
    | _ => none
  | _ => none

/-- Parsing a date string under the pipeline's date-format pattern
`"%d/%m/%Y"` (the pattern used by the classifier and window selector,
and the default everywhere). -/
def strptime_dmY (s : String) : Option Date := parseDMYChars s.data

/-- Formatting a date back through the same pattern,
`Timestamp.strftime("%d/%m/%Y")`: zero-padded two-digit day and month,
four-digit year. -/
def strftime_dmY (dt : Date) : String :=
  ⟨pad2 dt.day ++ '/' :: pad2 dt.month ++ '/' :: pad4 dt.year⟩

/-- ISO rendering `YYYY-MM-DD`, the Python `str(date)` /
`date.isoformat()` used both for cache keys and the holiday lookup. -/
def isoFormat (dt : Date) : String :=
  ⟨pad4 dt.year ++ '-' :: pad2 dt.month ++ '-' :: pad2 dt.day⟩

/-- Test that a date string is in the zero-padded canonical form of
the `"%d/%m/%Y"` pattern: two digit characters, a slash, two digit
characters, a slash, four digit characters (exactly the shape
`strftime("%d/%m/%Y")` emits). -/
def isPaddedDMY (s : String) : Bool :=
  match s.data with
  | [d1, d2, c1, m1, m2, c2, y1, y2, y3, y4] =>
    c1 == '/' && c2 == '/' && isDigitChar d1 && isDigitChar d2
      && isDigitChar m1 && isDigitChar m2 && isDigitChar y1 && isDigitChar y2
      && isDigitChar y3 && isDigitChar y4
  | _ => false

/-- Character-level model of `pd.to_datetime(s, dayfirst=True)` as it
behaves on the regex-vetted `d{1,2}/d{1,2}/d{4}` shapes fed to it by
the extractor: prefer day-first; if that is not a valid calendar date,
fall back to month-first (the `dateutil` swap); reject when neither
reading is valid or the timestamp is out of pandas bounds. -/
def to_datetime_dayfirst (cs : List Char) : Option Date :=
  let pa := takeDigits cs
  match pa.2 with
  | '/' :: r1 =>
    let pb := takeDigits r1
    match pb.2 with
    | '/' :: r2 =>
      let py := takeDigits r2
      if py.2 = [] ∧ 1 ≤ pa.1.length ∧ pa.1.length ≤ 2
          ∧ 1 ≤ pb.1.length ∧ pb.1.length ≤ 2 ∧ py.1.length = 4 then
        let a := digitsToNat pa.1
        let b := digitsToNat pb.1
        let y := digitsToNat py.1
        if isValidDate ⟨y, b, a⟩ ∧ inPandasBounds ⟨y, b, a⟩ then
          some ⟨y, b, a⟩
        else if isValidDate ⟨y, a, b⟩ ∧ inPandasBounds ⟨y, a, b⟩ then
          some ⟨y, a, b⟩
        else none
      else none
    | _ => none
  | _ => none

/-- A row of the canonical closure table (columns `Holiday Name`,
`Start Date`, `End Date`), dates kept as formatted strings exactly as
in the DataFrame. -/
structure Row where
  holidayName : String
  startDate : String
  endDate : String
deriving DecidableEq, Repr

/-- An output row of the funding classifier (the closure columns plus
`Funding Received to`; `none` is the Python `None` object placed by
`funding_rule` for rows outside the 1-2 day bands). -/
structure OutRow where
  holidayName : String
  startDate : String
  endDate : String
  fundingReceivedTo : Option String
deriving DecidableEq, Repr

/-- The anchor phrase marking the start of the closures list. -/
def anchorChars : List Char := "We will be closed on the following dates:".data

/-- The footer phrase (lower-cased) at which line processing stops. -/
def footerChars : List Char := "this calendar has been registered".data

/-- Whitespace characters removed by Python `str.strip()` (ASCII part). -/
def isPySpace (c : Char) : Bool :=
  c = ' ' || c = '\t' || c = '\n' || c = '\r' || c = '\x0b' || c = '\x0c'

/-- Model of Python `str.strip()`: drop whitespace from both ends. -/
def stripChars (cs : List Char) : List Char :=
  ((cs.dropWhile isPySpace).reverse.dropWhile isPySpace).reverse

/-- Split a character list at every occurrence of a separator
character (model of `str.splitlines` for newline-separated text; blank
pieces are filtered away by the caller just as in the source). -/
def splitOnChar (sep : Char) : List Char → List (List Char)
  | [] => [[]]
  | c :: rest =>
    let r := splitOnChar sep rest
    if c = sep then [] :: r
    else
      match r with
      | [] => [[c]]
      | h :: t => (c :: h) :: t

/-- Text after the last occurrence of `sep` in `cs`, or `none` when
`sep` does not occur. For the fixed anchor phrase (which has no
self-overlap) this is exactly Python's
`sep in text` check followed by `text.split(sep)[-1]`. -/
def afterLast (sep : List Char) : List Char → Option (List Char)
  | [] => none
  | c :: rest =>
    match afterLast sep rest with
    | some r => some r
    | none =>
      if sep.isPrefixOf (c :: rest) then some ((c :: rest).drop sep.length)
      else none

/-- Match one date of shape `\d{1,2}/\d{1,2}/\d{4}` at the head of the
character list, returning the matched characters and the remainder. -/
def matchDateChars (cs : List Char) : Option (List Char × List Char) :=
  let pa := takeDigits cs
  if 1 ≤ pa.1.length ∧ pa.1.length ≤ 2 then
    match pa.2 with
    | '/' :: r1 =>
      let pb := takeDigits r1
      if 1 ≤ pb.1.length ∧ pb.1.length ≤ 2 then
        match pb.2 with
        | '/' :: r2 =>
          let py := takeDigits r2
          if py.1.length = 4 then
            some (pa.1 ++ '/' :: pb.1 ++ '/' :: py.1, py.2)
          else none
        | _ => none
      else none
    | _ => none
  else none

/-- Model of the anchored line pattern
`^(\d{1,2}/\d{1,2}/\d{4})(?:\s*-\s*(\d{1,2}/\d{1,2}/\d{4}))?$`:
the two capture groups (the second optional). -/
def matchLine (cs : List Char) : Option (List Char × Option (List Char)) :=
  match matchDateChars cs with
  | none => none
  | some g1 =>
    if g1.2 = [] then some (g1.1, none)
    else
      match g1.2.dropWhile isPySpace with
      | '-' :: r2 =>
        match matchDateChars (r2.dropWhile isPySpace) with
        | some g2 => if g2.2 = [] then some (g1.1, some g2.1) else none
        | _ => none
      | _ => none

/-- Per-line loop of the extractor: stop at the footer phrase, skip
lines that fail the pattern or whose dates fail to parse, and emit a
`Closed` row (dates re-rendered through `"%d/%m/%Y"`) otherwise. -/
def processLines : List (List Char) → List Row
  | [] => []
  | l :: rest =>
    if footerChars.isPrefixOf (l.map Char.toLower) then []
    else
      match matchLine l with
      | none => processLines rest
      | some g =>
        match to_datetime_dayfirst g.1 with
        | none => processLines rest
        | some sd =>
          match (match g.2 with
                 | none => some sd
                 | some s2 => to_datetime_dayfirst s2) with
          | none => processLines rest
          | some ed =>
            ⟨"Closed", strftime_dmY sd, strftime_dmY ed⟩ :: processLines rest

/-- The non-blank stripped lines following the anchor on a page, or
`none` when the page has no anchor. -/
def pageLines (text : String) : Option (List (List Char)) :=
  match afterLast anchorChars text.data with
  | none => none
  | some after =>
    some (((splitOnChar '\n' after).map stripChars).filter (fun l => l ≠ []))

/-- Rows contributed by one page of extracted text. -/
def pageRows (text : String) : List Row :=
  match pageLines text with
  | none => []
  | some lines => processLines lines

/-- The text date-range extractor `parse_ecce_pdf_to_df`, consuming the
per-page plain text (PDF byte decoding is the external collaborator)
and producing the closure table. -/
def parse_ecce_pdf_to_df (pages : List String) : List Row :=
  (pages.map pageRows).flatten

/-- The persisted holiday-cache snapshot (`/tmp/openholidays_ie_cache.json`):
country code, window, generation timestamp and the holiday mapping
(ISO date string to holiday name, as an association list). -/
structure HolidaySnapshot where
  countryIsoCode : String
  validFrom : String
  validTo : String
  generatedAtUtc : String
  holidays : List (String × String)
deriving DecidableEq, Repr

/-- State of the on-disk cache file as the wrapper observes it:
missing, present but unreadable (read or JSON decode raises), or
present and readable with a decoded snapshot. -/
inductive CacheState where
  | absent
  | unreadable
  | readable (snap : HolidaySnapshot)
deriving DecidableEq, Repr

/-- The non-fatal notice surfaced via `st.warning` (or no notice on a
fresh fetch). No constructor models a raised exception: the wrapper
always returns. -/
inductive FetchNotice where
  | quiet
  | usingCachedData
  | noCacheFound (errMsg : String)
deriving DecidableEq, Repr

/-- The resilient wrapper `get_bank_holidays_ie_with_cache`. The
effectful pieces are explicit: `fetchResult` is the outcome of
`fetch_openholidays_public_holidays_ie` (holiday mapping, or the
raised exception's message), `cache` is the on-disk cache file state,
`nowUtc` the generation timestamp. Returns the holiday mapping, the
notice shown, and the cache state left behind. -/
def get_bank_holidays_ie_with_cache (validFrom validTo : String)
    (fetchResult : Except String (List (String × String)))
    (cache : CacheState) (nowUtc : String) :
    List (String × String) × FetchNotice × CacheState :=
  match fetchResult with
  | .ok holidays =>
    (holidays, .quiet, .readable ⟨"IE", validFrom, validTo, nowUtc, holidays⟩)
  | .error e =>
    match cache with
    | .readable snap => (snap.holidays, .usingCachedData, .readable snap)
    | .absent => ([], .noCacheFound e, .absent)
    | .unreadable => ([], .noCacheFound e, .unreadable)

/-- Start/end date pairs of the rows of `df` whose `Start Date` and
`End Date` both parse under the date format (the rows surviving
`dropna` after `errors="coerce"` parsing). -/
def parsedPairs (rows : List Row) : List (Date × Date) :=
  rows.filterMap (fun r =>
    match strptime_dmY r.startDate, strptime_dmY r.endDate with
    | some s, some e => some (s, e)
    | _, _ => none)

/-- Chronologically earliest element (`Series.min` on timestamps). -/
def minByOrdinal (d : Date) (l : List Date) : Date :=
  l.foldl (fun a b => if rataDie b < rataDie a then b else a) d

/-- Chronologically latest element (`Series.max` on timestamps). -/
def maxByOrdinal (d : Date) (l : List Date) : Date :=
  l.foldl (fun a b => if rataDie a < rataDie b then b else a) d

/-- The window selector `calendar_range_for_openholidays`:
`valid_from` = earliest parsed start date, `valid_to` = 31 December of
the year of the latest parsed end date, both as ISO strings; when no
row parses, the current calendar year (`today` stands for
`date.today()`). -/
def calendar_range_for_openholidays (rows : List Row) (today : Date) :
    String × String :=
  match parsedPairs rows with
  | [] =>
    (isoFormat ⟨today.year, 1, 1⟩, isoFormat ⟨today.year, 12, 31⟩)
  | p :: ps =>
    let minStart := minByOrdinal p.1 (ps.map Prod.fst)
    let maxEnd := maxByOrdinal p.2 (ps.map Prod.snd)
    (isoFormat minStart, isoFormat ⟨maxEnd.year, 12, 31⟩)

/-- Inclusive day count of a closure,
`(df.__end_dt - df.__start_dt).dt.days + 1`. -/
def closureDays (s e : Date) : Int :=
  ((rataDie e : Int) - (rataDie s : Int)) + 1

/-- The duration-band rule `funding_rule` of the classifier: 1- and
2-day closures map to the string `"Only Service"`, everything else to
the Python `None` object (modelled as `none`). -/
def funding_rule (days : Int) : Option String :=
  if days = 1 ∨ days = 2 then some "Only Service" else none

/-- Parse one row's start and end dates under the date format (the
per-row content of the `errors="coerce"` parse plus `dropna`). -/
def parseRow (r : Row) : Option (Date × Date) :=
  match strptime_dmY r.startDate, strptime_dmY r.endDate with
  | some s, some e => some (s, e)
  | _, _ => none

/-- The funding classifier `process_funding_calendar`. The holiday
mapping obtained from `get_bank_holidays_ie_with_cache` is passed in
as `bank_holidays` (the provider call is modelled separately); its key
set is the `bank_holiday_lookup`. Stages mirror the source: coerce
dates and drop bad rows, flag 1-day closures starting on a bank
holiday and exclude them, then classify the kept rows by
`funding_rule` and re-render the dates. -/
def process_funding_calendar (rows : List Row)
    (bank_holidays : List (String × String)) : List OutRow :=
  let bank_holiday_lookup := bank_holidays.map Prod.fst
  let parsed := rows.filterMap (fun r => (parseRow r).map (fun p => (r, p.1, p.2)))
  let kept := parsed.filter (fun t =>
    !(bank_holiday_lookup.contains (isoFormat t.2.1)
        && closureDays t.2.1 t.2.2 == 1))
  kept.map (fun t =>
    ⟨t.1.holidayName, strftime_dmY t.2.1, strftime_dmY t.2.2,
      funding_rule (closureDays t.2.1 t.2.2)⟩)

/-! ## Helper lemmas -/

theorem minByOrdinal_mem (l : List Date) : ∀ d, minByOrdinal d l ∈ d :: l := by
  induction l with
  | nil => intro d; simp [minByOrdinal]
  | cons b t ih =>
    intro d
    have hstep : minByOrdinal d (b :: t)
        = minByOrdinal (if rataDie b < rataDie d then b else d) t := rfl
    rw [hstep]
    by_cases h : rataDie b < rataDie d
    · rw [if_pos h]
      have hm := ih b
      simp only [List.mem_cons] at hm ⊢
      tauto
    · rw [if_neg h]
      have hm := ih d
      simp only [List.mem_cons] at hm ⊢
      tauto

theorem minByOrdinal_le (l : List Date) :
    ∀ d x, x ∈ d :: l → rataDie (minByOrdinal d l) ≤ rataDie x := by
  induction l with
  | nil =>
    intro d x hx
    simp only [List.mem_singleton] at hx
    subst hx
    exact Nat.le_refl _
  | cons b t ih =>
    intro d x hx
    have hstep : minByOrdinal d (b :: t)
        = minByOrdinal (if rataDie b < rataDie d then b else d) t := rfl
    rw [hstep]
    by_cases h : rataDie b < rataDie d
    · rw [if_pos h]
      rcases List.mem_cons.mp hx with h1 | hx2
      · subst h1
        exact Nat.le_of_lt (Nat.lt_of_le_of_lt (ih b b (List.mem_cons_self b t)) h)
      · exact ih b x hx2
    · rw [if_neg h]
      rcases List.mem_cons.mp hx with h1 | hx2
      · subst h1
        exact ih x x (List.mem_cons_self x t)
      · rcases List.mem_cons.mp hx2 with h2 | hx3
        · subst h2
          exact Nat.le_trans (ih d d (List.mem_cons_self d t)) (Nat.le_of_not_lt h)
        · exact ih d x (List.mem_cons_of_mem d hx3)

theorem maxByOrdinal_mem (l : List Date) : ∀ d, maxByOrdinal d l ∈ d :: l := by
  induction l with
  | nil => intro d; simp [maxByOrdinal]
  | cons b t ih =>
    intro d
    have hstep : maxByOrdinal d (b :: t)
        = maxByOrdinal (if rataDie d < rataDie b then b else d) t := rfl
    rw [hstep]
    by_cases h : rataDie d < rataDie b
    · rw [if_pos h]
      have hm := ih b
      simp only [List.mem_cons] at hm ⊢
      tauto
    · rw [if_neg h]
      have hm := ih d
      simp only [List.mem_cons] at hm ⊢
      tauto

theorem maxByOrdinal_ge (l : List Date) :
    ∀ d x, x ∈ d :: l → rataDie x ≤ rataDie (maxByOrdinal d l) := by
  induction l with
  | nil =>
    intro d x hx
    simp only [List.mem_singleton] at hx
    subst hx
    exact Nat.le_refl _
  | cons b t ih =>
    intro d x hx
    have hstep : maxByOrdinal d (b :: t)
        = maxByOrdinal (if rataDie d < rataDie b then b else d) t := rfl
    rw [hstep]
    by_cases h : rataDie d < rataDie b
    · rw [if_pos h]
      rcases List.mem_cons.mp hx with h1 | hx2
      · subst h1
        exact Nat.le_of_lt (Nat.lt_of_lt_of_le h (ih b b (List.mem_cons_self b t)))
      · exact ih b x hx2
    · rw [if_neg h]
      rcases List.mem_cons.mp hx with h1 | hx2
      · subst h1
        exact ih x x (List.mem_cons_self x t)
      · rcases List.mem_cons.mp hx2 with h2 | hx3
        · subst h2
          exact Nat.le_trans (Nat.le_of_not_lt h) (ih d d (List.mem_cons_self d t))
        · exact ih d x (List.mem_cons_of_mem d hx3)

theorem processLines_eq_nil (ls : List (List Char))
    (h : ∀ l ∈ ls, matchLine l = none) : processLines ls = [] := by
  induction ls with
  | nil => rfl
  | cons l t ih =>
    unfold processLines
    by_cases hf : footerChars.isPrefixOf (l.map Char.toLower) = true
    · rw [if_pos hf]
    · rw [if_neg hf, h l (List.mem_cons_self l t)]
      exact ih (fun x hx => h x (List.mem_cons_of_mem l hx))

/-! ## Claims -/

/-- C4: the resilient holiday-provider wrapper never raises (it is a
total function of the fetch outcome and the cache state): when the
remote fetch fails and a readable on-disk snapshot exists, it returns
the snapshot's holiday mapping with the non-fatal "using cached"
notice; when the fetch fails and no snapshot exists, it returns the
empty mapping with the distinct non-fatal "no cache found" notice. -/
theorem get_bank_holidays_ie_with_cache_fallback
    (vf vt e nowUtc : String) (snap : HolidaySnapshot) :
    get_bank_holidays_ie_with_cache vf vt (.error e) (.readable snap) nowUtc
        = (snap.holidays, .usingCachedData, .readable snap)
    ∧ get_bank_holidays_ie_with_cache vf vt (.error e) .absent nowUtc
        = ([], .noCacheFound e, .absent)
    ∧ FetchNotice.usingCachedData ≠ FetchNotice.noCacheFound e := by
  refine ⟨rfl, rfl, ?_⟩
  intro h
  exact FetchNotice.noConfusion h

/-- C5: running the extractor on page text containing the anchor
phrase followed by the lines `25/08/2025 - 29/08/2025` and
`02/02/2026` and then a footer line yields exactly the two closure
records with start/end pairs (25/08/2025, 29/08/2025) and
(02/02/2026, 02/02/2026) in that order; the parseable line placed
after the footer contributes no record. -/
theorem parse_ecce_pdf_to_df_two_records :
    parse_ecce_pdf_to_df
      ["ECCE Service Calendar\nWe will be closed on the following dates:\n25/08/2025 - 29/08/2025\n02/02/2026\nThis calendar has been registered with Pobal\n03/03/2026"]
      = [⟨"Closed", "25/08/2025", "29/08/2025"⟩,
         ⟨"Closed", "02/02/2026", "02/02/2026"⟩] := by
  decide

/-- C7: when no page contains the anchor phrase, or every line after
an anchor fails both accepted date shapes, the extractor returns the
empty table (and, being a total function, raises nothing). -/
theorem parse_ecce_pdf_to_df_empty (pages : List String)
    (h : ∀ p ∈ pages, ∀ ls, pageLines p = some ls → ∀ l ∈ ls, matchLine l = none) :
    parse_ecce_pdf_to_df pages = [] := by
  unfold parse_ecce_pdf_to_df
  rw [List.flatten_eq_nil_iff]
  intro rs hrs
  rcases List.mem_map.mp hrs with ⟨p, hp, hrw⟩
  subst hrw
  unfold pageRows
  cases hpl : pageLines p with
  | none => rfl
  | some ls => exact processLines_eq_nil ls (h p hp ls hpl)

theorem parse_ecce_pdf_to_df_empty_witness :
    parse_ecce_pdf_to_df ["Fee schedule 2025\nno closure section on this page"] = [] := by
  refine parse_ecce_pdf_to_df_empty _ ?_
  intro p hp ls hls
  rw [List.mem_singleton] at hp
  subst hp
  rw [show pageLines "Fee schedule 2025\nno closure section on this page" = none
    from by decide] at hls
  exact Option.noConfusion hls

/-- C8: for every closure whose parsed dates satisfy the invariant
`end >= start`, the inclusive duration computed by the funding
classifier equals the day difference plus one and is at least 1. -/
theorem closureDays_spec (s e : Date) (h : rataDie s ≤ rataDie e) :
    closureDays s e = ((rataDie e : Int) - (rataDie s : Int)) + 1
      ∧ 1 ≤ closureDays s e := by
  refine ⟨rfl, ?_⟩
  unfold closureDays
  omega

theorem closureDays_spec_witness :
    closureDays ⟨2025, 3, 10⟩ ⟨2025, 3, 12⟩
        = ((rataDie ⟨2025, 3, 12⟩ : Int) - (rataDie ⟨2025, 3, 10⟩ : Int)) + 1
      ∧ 1 ≤ closureDays ⟨2025, 3, 10⟩ ⟨2025, 3, 12⟩ :=
  closureDays_spec ⟨2025, 3, 10⟩ ⟨2025, 3, 12⟩ (by decide)

/-- C1: every closure of inclusive duration 1 or 2 days that is not a
1-day closure starting on a public holiday is kept by the funding
classifier with funding outcome the string `"Only Service"`. -/
theorem process_funding_calendar_only_service (rows : List Row)
    (bank_holidays : List (String × String)) (r : Row) (s e : Date)
    (hmem : r ∈ rows) (hparse : parseRow r = some (s, e))
    (hdur : closureDays s e = 1 ∨ closureDays s e = 2)
    (hnotbh : ¬(closureDays s e = 1 ∧ isoFormat s ∈ bank_holidays.map Prod.fst)) :
    (⟨r.holidayName, strftime_dmY s, strftime_dmY e, some "Only Service"⟩ : OutRow)
      ∈ process_funding_calendar rows bank_holidays := by
  unfold process_funding_calendar
  have hfr : funding_rule (closureDays s e) = some "Only Service" := by
    unfold funding_rule
    rw [if_pos hdur]
  refine List.mem_map.mpr ⟨(r, s, e), ?_, ?_⟩
  · refine List.mem_filter.mpr ⟨?_, ?_⟩
    · exact List.mem_filterMap.mpr ⟨r, hmem, by rw [hparse]; rfl⟩
    · by_cases h1 : closureDays s e = 1
      · have hnb : isoFormat s ∉ bank_holidays.map Prod.fst :=
          fun hin => hnotbh ⟨h1, hin⟩
        simp [hnb]
      · simp [h1]
  · simp only
    rw [hfr]

theorem process_funding_calendar_only_service_witness :
    (⟨"Mid-term", "30/10/2025", "31/10/2025", some "Only Service"⟩ : OutRow)
      ∈ process_funding_calendar [⟨"Mid-term", "30/10/2025", "31/10/2025"⟩]
          [("2025-10-30", "A made-up holiday")] :=
  process_funding_calendar_only_service _ _ _ ⟨2025, 10, 30⟩ ⟨2025, 10, 31⟩
    (List.mem_singleton.mpr rfl) (by decide) (by decide) (by decide)

/-- C2 counterexample: a 3-day closure is kept, but its
`Funding Received to` value is the Python `None` object (`none`), not
the string `"None"`; the claim as stated is false on this input. -/
theorem process_funding_calendar_none_band_counterexample :
    (process_funding_calendar [⟨"Closed", "10/03/2025", "12/03/2025"⟩] []).map
        OutRow.fundingReceivedTo = [none]
    ∧ (none : Option String) ≠ some "None" := by
  decide

/-- C2 (amended): every closure of inclusive duration at least 3 days
is kept by the classifier with the null funding outcome (the Python
`None` placed by `funding_rule`, modelled `none`) rather than the
string `"None"`, and every output row's `Funding Received to` value is
either the string `"Only Service"` or that null value; no row is
omitted on account of its funding outcome. -/
theorem process_funding_calendar_none_band (rows : List Row)
    (bank_holidays : List (String × String)) :
    (∀ r s e, r ∈ rows → parseRow r = some (s, e) → 3 ≤ closureDays s e →
      (⟨r.holidayName, strftime_dmY s, strftime_dmY e, none⟩ : OutRow)
        ∈ process_funding_calendar rows bank_holidays)
    ∧ (∀ o ∈ process_funding_calendar rows bank_holidays,
        o.fundingReceivedTo = some "Only Service" ∨ o.fundingReceivedTo = none) := by
  constructor
  · intro r s e hmem hparse hdur
    unfold process_funding_calendar
    have hfr : funding_rule (closureDays s e) = none := by
      unfold funding_rule
      rw [if_neg]
      omega
    refine List.mem_map.mpr ⟨(r, s, e), ?_, ?_⟩
    · refine List.mem_filter.mpr ⟨?_, ?_⟩
      · exact List.mem_filterMap.mpr ⟨r, hmem, by rw [hparse]; rfl⟩
      · have h1 : ¬ closureDays s e = 1 := by omega
        simp [h1]
    · simp only
      rw [hfr]
  · intro o ho
    unfold process_funding_calendar at ho
    rcases List.mem_map.mp ho with ⟨t, _, hto⟩
    subst hto
    simp only
    unfold funding_rule
    by_cases hd : closureDays t.2.1 t.2.2 = 1 ∨ closureDays t.2.1 t.2.2 = 2
    · rw [if_pos hd]
      exact Or.inl rfl
    · rw [if_neg hd]
      exact Or.inr rfl

theorem process_funding_calendar_none_band_witness :
    (⟨"Closed", "10/03/2025", "12/03/2025", none⟩ : OutRow)
      ∈ process_funding_calendar [⟨"Closed", "10/03/2025", "12/03/2025"⟩] [] :=
  (process_funding_calendar_none_band _ _).1 _ ⟨2025, 3, 10⟩ ⟨2025, 3, 12⟩
    (List.mem_singleton.mpr rfl) (by decide) (by decide)

/-- C10: the bank-holiday exclusion never removes a closure of
inclusive duration at least 2: such a record survives for every
holiday set whatsoever (in particular whether or not its start or end
date is a public holiday) and is classified purely by the duration
rule `funding_rule`. -/
theorem process_funding_calendar_keeps_multiday (rows : List Row)
    (bank_holidays : List (String × String)) (r : Row) (s e : Date)
    (hmem : r ∈ rows) (hparse : parseRow r = some (s, e))
    (hdur : 2 ≤ closureDays s e) :
    (⟨r.holidayName, strftime_dmY s, strftime_dmY e,
        funding_rule (closureDays s e)⟩ : OutRow)
      ∈ process_funding_calendar rows bank_holidays := by
  unfold process_funding_calendar
  refine List.mem_map.mpr ⟨(r, s, e), ?_, rfl⟩
  refine List.mem_filter.mpr ⟨?_, ?_⟩
  · exact List.mem_filterMap.mpr ⟨r, hmem, by rw [hparse]; rfl⟩
  · have h1 : ¬ closureDays s e = 1 := by omega
    simp [h1]

theorem process_funding_calendar_keeps_multiday_witness :
    (⟨"Mid-term", "30/10/2025", "31/10/2025",
        funding_rule (closureDays ⟨2025, 10, 30⟩ ⟨2025, 10, 31⟩)⟩ : OutRow)
      ∈ process_funding_calendar [⟨"Mid-term", "30/10/2025", "31/10/2025"⟩]
          [("2025-10-30", "A"), ("2025-10-31", "B")] :=
  process_funding_calendar_keeps_multiday _ _ _ ⟨2025, 10, 30⟩ ⟨2025, 10, 31⟩
    (List.mem_singleton.mpr rfl) (by decide) (by decide)

/-- C3: a 1-day closure whose start date is a key of the public-holiday
set is excluded entirely: the classifier's output on any list
containing such a record equals its output with the record removed. -/
theorem process_funding_calendar_excludes_bank_holiday_single_day
    (bank_holidays : List (String × String)) (r : Row) (s e : Date)
    (l1 l2 : List Row)
    (hparse : parseRow r = some (s, e)) (hdur : closureDays s e = 1)
    (hbh : isoFormat s ∈ bank_holidays.map Prod.fst) :
    process_funding_calendar (l1 ++ r :: l2) bank_holidays
      = process_funding_calendar (l1 ++ l2) bank_holidays := by
  unfold process_funding_calendar
  have hg : ((bank_holidays.map Prod.fst).contains (isoFormat s)
      && (closureDays s e == 1)) = true := by
    simp [List.elem_iff, hbh, hdur]
  simp only [List.filterMap_append, List.filterMap_cons, hparse, Option.map_some,
    Option.map_some', List.filter_append, List.filter_cons, hg]
  simp

theorem process_funding_calendar_excludes_bank_holiday_single_day_witness :
    process_funding_calendar
        ([⟨"Easter", "01/04/2026", "10/04/2026"⟩]
          ++ (⟨"June BH", "01/06/2026", "01/06/2026"⟩ : Row)
          :: [⟨"Summer", "01/07/2026", "31/07/2026"⟩])
        [("2026-06-01", "June Bank Holiday")]
      = process_funding_calendar
          ([⟨"Easter", "01/04/2026", "10/04/2026"⟩]
            ++ [⟨"Summer", "01/07/2026", "31/07/2026"⟩])
          [("2026-06-01", "June Bank Holiday")] :=
  process_funding_calendar_excludes_bank_holiday_single_day
    _ _ ⟨2026, 6, 1⟩ ⟨2026, 6, 1⟩ _ _ (by decide) (by decide) (by decide)

/-- C6: on a closure list with at least one parseable row the window
selector returns `validFrom` equal to (the ISO rendering of) the
chronologically minimal parsed start date and `validTo` equal to 31
December of the year of the chronologically maximal parsed end date;
with no parseable rows it returns 1 January to 31 December of the
current year; and on the closures 10/03/2025-12/03/2025 and
01/09/2025-01/09/2025 it returns (2025-03-10, 2025-12-31). -/
theorem calendar_range_for_openholidays_spec (rows : List Row) (today : Date) :
    (parsedPairs rows = [] →
      calendar_range_for_openholidays rows today
        = (isoFormat ⟨today.year, 1, 1⟩, isoFormat ⟨today.year, 12, 31⟩))
    ∧ (∀ p ps, parsedPairs rows = p :: ps →
        ∃ dmin dmax,
          dmin ∈ (p :: ps).map Prod.fst
          ∧ (∀ x ∈ (p :: ps).map Prod.fst, rataDie dmin ≤ rataDie x)
          ∧ dmax ∈ (p :: ps).map Prod.snd
          ∧ (∀ x ∈ (p :: ps).map Prod.snd, rataDie x ≤ rataDie dmax)
          ∧ calendar_range_for_openholidays rows today
              = (isoFormat dmin, isoFormat ⟨dmax.year, 12, 31⟩))
    ∧ calendar_range_for_openholidays
        [⟨"Closed", "10/03/2025", "12/03/2025"⟩,
         ⟨"Closed", "01/09/2025", "01/09/2025"⟩] today
        = ("2025-03-10", "2025-12-31") := by
  refine ⟨?_, ?_, ?_⟩
  · intro h
    unfold calendar_range_for_openholidays
    rw [h]
  · intro p ps h
    refine ⟨minByOrdinal p.1 (ps.map Prod.fst), maxByOrdinal p.2 (ps.map Prod.snd),
      ?_, ?_, ?_, ?_, ?_⟩
    · have hm := minByOrdinal_mem (ps.map Prod.fst) p.1
      rw [List.map_cons]
      exact hm
    · intro x hx
      rw [List.map_cons] at hx
      exact minByOrdinal_le (ps.map Prod.fst) p.1 x hx
    · have hm := maxByOrdinal_mem (ps.map Prod.snd) p.2
      rw [List.map_cons]
      exact hm
    · intro x hx
      rw [List.map_cons] at hx
      exact maxByOrdinal_ge (ps.map Prod.snd) p.2 x hx
    · unfold calendar_range_for_openholidays
      rw [h]
  · rfl

theorem calendar_range_for_openholidays_spec_witness :
    calendar_range_for_openholidays [] ⟨2026, 1, 15⟩
      = ("2026-01-01", "2026-12-31") :=
  (calendar_range_for_openholidays_spec [] ⟨2026, 1, 15⟩).1 rfl

theorem takeDigits_digit (c : Char) (cs : List Char) (h : isDigitChar c = true) :
    takeDigits (c :: cs) = (c :: (takeDigits cs).1, (takeDigits cs).2) := by
  simp [takeDigits, h]

theorem takeDigits_nondigit (c : Char) (cs : List Char) (h : isDigitChar c = false) :
    takeDigits (c :: cs) = ([], c :: cs) := by
  simp [takeDigits, h]

theorem isDigitChar_toNat (c : Char) (h : isDigitChar c = true) :
    48 ≤ c.toNat ∧ c.toNat ≤ 57 := by
  unfold isDigitChar at h
  simp only [Bool.and_eq_true, decide_eq_true_eq] at h
  exact h

theorem digitVal_le_nine (c : Char) (h : isDigitChar c = true) :
    digitVal c ≤ 9 := by
  have hb := isDigitChar_toNat c h
  unfold digitVal
  omega

theorem digitChar_digitVal (c : Char) (h : isDigitChar c = true) :
    digitChar (digitVal c) = c := by
  have hb := isDigitChar_toNat c h
  unfold digitChar digitVal
  have hc : 48 + (c.toNat - 48) = c.toNat := by omega
  rw [hc, Char.ofNat_toNat]

theorem pad2_digits (a b : Char) (ha : isDigitChar a = true)
    (hb : isDigitChar b = true) : pad2 (digitsToNat [a, b]) = [a, b] := by
  have ha9 := digitVal_le_nine a ha
  have hb9 := digitVal_le_nine b hb
  have hval : digitsToNat [a, b] = 10 * digitVal a + digitVal b := by
    simp [digitsToNat]
  rw [hval]
  unfold pad2
  have h1 : (10 * digitVal a + digitVal b) / 10 = digitVal a := by omega
  have h2 : (10 * digitVal a + digitVal b) % 10 = digitVal b := by omega
  rw [h1, h2, digitChar_digitVal a ha, digitChar_digitVal b hb]

theorem pad4_digits (a b c d : Char) (ha : isDigitChar a = true)
    (hb : isDigitChar b = true) (hc : isDigitChar c = true)
    (hd : isDigitChar d = true) :
    pad4 (digitsToNat [a, b, c, d]) = [a, b, c, d] := by
  have ha9 := digitVal_le_nine a ha
  have hb9 := digitVal_le_nine b hb
  have hc9 := digitVal_le_nine c hc
  have hd9 := digitVal_le_nine d hd
  have hval : digitsToNat [a, b, c, d]
      = 1000 * digitVal a + 100 * digitVal b + 10 * digitVal c + digitVal d := by
    simp [digitsToNat]
    ring
  rw [hval]
  unfold pad4
  have h1 : (1000 * digitVal a + 100 * digitVal b + 10 * digitVal c + digitVal d)
      / 1000 = digitVal a := by omega
  have h2 : (1000 * digitVal a + 100 * digitVal b + 10 * digitVal c + digitVal d)
      / 100 % 10 = digitVal b := by omega
  have h3 : (1000 * digitVal a + 100 * digitVal b + 10 * digitVal c + digitVal d)
      / 10 % 10 = digitVal c := by omega
  have h4 : (1000 * digitVal a + 100 * digitVal b + 10 * digitVal c + digitVal d)
      % 10 = digitVal d := by omega
  rw [h1, h2, h3, h4, digitChar_digitVal a ha, digitChar_digitVal b hb,
    digitChar_digitVal c hc, digitChar_digitVal d hd]

/-- C9 counterexample: the string `2/2/2026` is accepted by the
pipeline's parse under the pattern `"%d/%m/%Y"`, but formatting the
parsed date back through the same pattern yields `02/02/2026`, not the
original string: the round-trip claim is false as stated. -/
theorem strptime_strftime_roundtrip_counterexample :
    strptime_dmY "2/2/2026" = some ⟨2026, 2, 2⟩
    ∧ strftime_dmY ⟨2026, 2, 2⟩ ≠ "2/2/2026" := by
  decide

/-- C9 (amended): the round-trip holds exactly on the zero-padded
canonical form: for every date string accepted under the pattern
`"%d/%m/%Y"` whose day and month fields are two digits and whose year
field is four digits, formatting the parsed date back through the same
pattern reproduces the original string. -/
theorem strptime_strftime_roundtrip (s : String) (dt : Date)
    (hparse : strptime_dmY s = some dt) (hpad : isPaddedDMY s = true) :
    strftime_dmY dt = s := by
  cases s with
  | mk cs =>
    unfold isPaddedDMY at hpad
    rcases cs with _ | ⟨a1, _ | ⟨a2, _ | ⟨s1, _ | ⟨b1, _ | ⟨b2, _ | ⟨s2,
      _ | ⟨y1, _ | ⟨y2, _ | ⟨y3, _ | ⟨y4, _ | ⟨x, rest⟩⟩⟩⟩⟩⟩⟩⟩⟩⟩⟩
    case nil => exact Bool.noConfusion hpad
    case cons.nil => exact Bool.noConfusion hpad
    case cons.cons.nil => exact Bool.noConfusion hpad
    case cons.cons.cons.nil => exact Bool.noConfusion hpad
    case cons.cons.cons.cons.nil => exact Bool.noConfusion hpad
    case cons.cons.cons.cons.cons.nil => exact Bool.noConfusion hpad
    case cons.cons.cons.cons.cons.cons.nil => exact Bool.noConfusion hpad
    case cons.cons.cons.cons.cons.cons.cons.nil => exact Bool.noConfusion hpad
    case cons.cons.cons.cons.cons.cons.cons.cons.nil =>
      exact Bool.noConfusion hpad
    case cons.cons.cons.cons.cons.cons.cons.cons.cons.nil =>
      exact Bool.noConfusion hpad
    case cons.cons.cons.cons.cons.cons.cons.cons.cons.cons.cons =>
      exact Bool.noConfusion hpad
    case cons.cons.cons.cons.cons.cons.cons.cons.cons.cons.nil =>
      simp only [Bool.and_eq_true, beq_iff_eq] at hpad
      obtain ⟨⟨⟨⟨⟨⟨⟨⟨⟨hs1, hs2⟩, ha1⟩, ha2⟩, hb1⟩, hb2⟩, hy1⟩, hy2⟩, hy3⟩, hy4⟩ := hpad
      subst hs1
      subst hs2
      have hslash : isDigitChar '/' = false := by decide
      have t3 : takeDigits [y1, y2, y3, y4] = ([y1, y2, y3, y4], []) := by
        rw [takeDigits_digit _ _ hy1, takeDigits_digit _ _ hy2,
          takeDigits_digit _ _ hy3, takeDigits_digit _ _ hy4]
        rfl
      have t2 : takeDigits [b1, b2, '/', y1, y2, y3, y4]
          = ([b1, b2], '/' :: [y1, y2, y3, y4]) := by
        rw [takeDigits_digit _ _ hb1, takeDigits_digit _ _ hb2,
          takeDigits_nondigit _ _ hslash]
      have t1 : takeDigits [a1, a2, '/', b1, b2, '/', y1, y2, y3, y4]
          = ([a1, a2], '/' :: [b1, b2, '/', y1, y2, y3, y4]) := by
        rw [takeDigits_digit _ _ ha1, takeDigits_digit _ _ ha2,
          takeDigits_nondigit _ _ hslash]
      unfold strptime_dmY parseDMYChars at hparse
      simp only [t1, t2, t3, List.length_cons, List.length_nil] at hparse
      norm_num at hparse
      obtain ⟨hC, hdt⟩ := hparse
      subst hdt
      unfold strftime_dmY
      simp only [pad2_digits a1 a2 ha1 ha2, pad2_digits b1 b2 hb1 hb2,
        pad4_digits y1 y2 y3 y4 hy1 hy2 hy3 hy4]
      rfl

theorem strptime_strftime_roundtrip_witness :
    strftime_dmY ⟨2026, 2, 2⟩ = "02/02/2026" :=
  strptime_strftime_roundtrip "02/02/2026" ⟨2026, 2, 2⟩ (by decide) (by decide)
